import Mathlib

/- Shallow embedding of the local-employment-system repository's models layer
   (`models/mongodb.py`, `models/user_model_mongo.py`, `models/job_model_mongo.py`,
   `models/application_model_mongo.py`).

   Modelling conventions:
   - MongoDB ObjectIds are natural numbers; `datetime.utcnow()` timestamps are
     natural-number ticks taken from an explicit clock in the database state.
   - Each collection is a list of documents in insertion order; `insert_one`
     appends, `find_one` returns the first match, `delete_one` removes the
     first match, matching Mongo's natural-order scans for these queries.
   - The 8 hash partitions `workers_partition_0 .. workers_partition_7` are a
     function from the partition index to the document list; the per-year job
     partitions `jobs_<year>` are an association list keyed by year, in
     collection-listing order.
   - Python's builtin `hash` (used by `hash_partition`) is an unspecified
     platform string hash; it is passed explicitly as a `pyHash` argument.
   - MongoDB `$regex` with the `"i"` option, applied by the repository only to
     plain (metacharacter-free) patterns, is modelled as case-insensitive
     substring containment.
   - Fallible operations that `raise` in Python return `Except` values paired
     with the (unchanged) state. -/

/-- A MongoDB ObjectId, modelled as a natural number. -/
abbrev OID := Nat

/-- Document of the unpartitioned `users` collection. -/
structure UserDoc where
  _id : OID
  email : String
  role : String
  deriving DecidableEq, Repr

/-- Worker profile document, as built by `ensure_worker_row`. -/
structure WorkerDoc where
  _id : OID
  user_id : OID
  full_name : String
  skills : String
  phone : String
  location : String
  experience : String
  created_at : Nat
  deriving DecidableEq, Repr

/-- Document of the unpartitioned `employers` collection. -/
structure EmployerDoc where
  _id : OID
  user_id : OID
  company_name : String
  employer_name : String
  location : String
  phone : String
  deriving DecidableEq, Repr

/-- Document of the unpartitioned `admins` collection. -/
structure AdminDoc where
  _id : OID
  user_id : OID
  admin_name : String
  department : String
  deriving DecidableEq, Repr

/-- Job document, as built by `post_job`.  Salaries are rationals standing for
    the Python floats; `location` is optional because legacy documents may
    lack the field (`post_job` itself always stores a string). -/
structure JobDoc where
  _id : OID
  employer_id : OID
  title : String
  required_skills : String
  description : String
  salary_min : Option Rat
  salary_max : Option Rat
  location : Option String
  status : String
  posted_at : Nat
  created_at : Nat
  deriving DecidableEq, Repr

/-- Document of the unpartitioned `applications` collection. -/
structure ApplicationDoc where
  _id : OID
  job_id : OID
  worker_id : OID
  application_status : String
  applied_at : Nat
  created_at : Nat
  deriving DecidableEq, Repr

/-- The database state: one field per collection touched by the claims.
    `workers` is the unpartitioned staging collection that `ensure_worker_row`
    inserts into and immediately empties again; `jobs` is the legacy
    unpartitioned jobs collection (excluded from partition discovery).
    `nextId` is the next ObjectId the storage layer generates; `clock` is the
    current `datetime.utcnow()` tick and `clockYear` its year component. -/
structure DB where
  users : List UserDoc
  workers : List WorkerDoc
  workerParts : Nat → List WorkerDoc
  employers : List EmployerDoc
  admins : List AdminDoc
  applications : List ApplicationDoc
  jobs : List JobDoc
  jobParts : List (Nat × List JobDoc)
  nextId : OID
  clock : Nat
  clockYear : Nat

/-- ASCII whitespace, as stripped by Python `str.strip()`. -/
def isPySpace (c : Char) : Bool :=
  c = ' ' || c = '\t' || c = '\n' || c = '\r'

/-- Python `str.strip()` on the character list of a string. -/
def trimChars (l : List Char) : List Char :=
  ((l.dropWhile isPySpace).reverse.dropWhile isPySpace).reverse

/-- Python `str.split(sep)` for a one-character separator, on character
    lists: always at least one (possibly empty) piece. -/
def splitOnChar (c : Char) : List Char → List (List Char)
  | [] => [[]]
  | x :: xs =>
    match splitOnChar c xs with
    | [] => [[]]
    | y :: ys => if x = c then [] :: y :: ys else (x :: y) :: ys

/-- Case-insensitive substring containment: models MongoDB
    `$regex: pat, $options: "i"` for literal patterns. -/
def strContainsCI (hay pat : String) : Bool :=
  let h := hay.data.map Char.toLower
  let p := pat.data.map Char.toLower
  (List.range (h.length + 1)).any (fun i => p.isPrefixOf (h.drop i))

/-- Python string truthiness on an optional argument: an absent argument and
    an empty string both fail an `if arg:` guard. -/
def pyStrOpt : Option String → Option String
  | some "" => none
  | o => o

/-- models `mongodb.hash_partition(value, num_partitions=8)`:
    `hash(str(value)) % num_partitions` with the default 8 used by every
    caller.  Python's `%` with a positive modulus returns a value in `[0, 8)`,
    which is `Int.emod` followed by `toNat`. -/
def hash_partition (pyHash : String → Int) (value : String) : Nat :=
  ((pyHash value) % 8).toNat

/-- models `mongodb.get_worker_partition_collection(worker_id)`. -/
def get_worker_partition_collection (pyHash : String → Int) (worker_id : OID) : String :=
  "workers_partition_" ++ toString (hash_partition pyHash (toString worker_id))

/-- The numeric partition index named by `get_worker_partition_collection`,
    used to index the partition table in the state. -/
def workerPartIndex (pyHash : String → Int) (worker_id : OID) : Nat :=
  hash_partition pyHash (toString worker_id)

/-- models `mongodb.get_all_worker_partitions()`: the 8 static names in order. -/
def get_all_worker_partitions : List String :=
  (List.range 8).map (fun i => "workers_partition_" ++ toString i)

/-- models `mongodb.get_jobs_partition_collection(year)`. -/
def get_jobs_partition_collection (year : Nat) : String :=
  "jobs_" ++ toString year

/-- models `job_model_mongo._get_all_job_partitions()`: lists the collections
    whose name starts with `jobs_`, excluding the legacy unpartitioned `jobs`
    collection.  In the state model the year-keyed partition table holds
    exactly those collections, so discovery returns their names in
    collection-listing order. -/
def _get_all_job_partitions (s : DB) : List String :=
  s.jobParts.map (fun pd => get_jobs_partition_collection pd.1)

/-- `delete_one`: remove the first document matching the predicate. -/
def deleteOneBy {α : Type} (p : α → Bool) : List α → List α
  | [] => []
  | x :: xs => if p x then xs else x :: deleteOneBy p xs

/-- `update_one`: rewrite the first document matching the predicate. -/
def updateOneBy {α : Type} (p : α → Bool) (f : α → α) : List α → List α
  | [] => []
  | x :: xs => if p x then f x :: xs else x :: updateOneBy p f xs

/-- All job documents across the year partitions, in partition order. -/
def allPartitionJobs (s : DB) : List JobDoc :=
  s.jobParts.flatMap (fun pd => pd.2)

/-- Total number of job documents across the year partitions. -/
def totalPartitionJobs (s : DB) : Nat :=
  (s.jobParts.map (fun pd => pd.2.length)).sum

/-- Number of worker records with the given `user_id` across all 8 hash
    partitions combined. -/
def workerCountForUser (s : DB) (u : OID) : Nat :=
  ((List.range 8).map (fun i => (s.workerParts i).countP (fun w => w.user_id = u))).sum

/-- models `user_model_mongo._find_worker_in_partitions(query)`: scan the 8
    partitions in `get_all_worker_partitions()` order and return the first
    matching document. -/
def _find_worker_in_partitions (s : DB) (q : WorkerDoc → Bool) : Option WorkerDoc :=
  (List.range 8).findSome? (fun i => (s.workerParts i).find? q)

/-- The worker document built by `ensure_worker_row` on a miss; its ObjectId
    is the one the staging `insert_one` generates. -/
def newWorkerDoc (user_id : OID) (full_name skills : String) (s : DB) : WorkerDoc :=
  { _id := s.nextId, user_id := user_id, full_name := full_name, skills := skills,
    phone := "", location := "", experience := "", created_at := s.clock }

/-- models `user_model_mongo.ensure_worker_row(user_id, full_name, skills)`.
    Returns the worker id in its string form (the Python function returns it
    inside a dict under the key `worker_id`) together with the updated state.
    On a miss the document is first staged in the unpartitioned `workers`
    collection to obtain an ObjectId, then copied into the hash partition
    assigned by that id, then the staging copy is deleted. -/
def ensure_worker_row (pyHash : String → Int) (user_id : OID)
    (full_name skills : String) (s : DB) : String × DB :=
  match _find_worker_in_partitions s (fun w => w.user_id = user_id) with
  | some w => (toString w._id, s)
  | none =>
    let wid := s.nextId
    let doc := newWorkerDoc user_id full_name skills s
    let staged := s.workers ++ [doc]
    let p := workerPartIndex pyHash wid
    let parts := fun i => if i = p then s.workerParts i ++ [doc] else s.workerParts i
    let unstaged := deleteOneBy (fun w => w._id = wid) staged
    (toString wid,
      { s with workers := unstaged, workerParts := parts, nextId := s.nextId + 1 })

/-- models `user_model_mongo.get_worker_by_id(worker_id)`: query the hash
    partition computed from the id; on a miss fall back to a scan of all
    partitions in order; `none` when absent everywhere. -/
def get_worker_by_id (pyHash : String → Int) (worker_id : OID) (s : DB) :
    Option WorkerDoc :=
  match (s.workerParts (workerPartIndex pyHash worker_id)).find?
      (fun w => w._id = worker_id) with
  | some w => some w
  | none => _find_worker_in_partitions s (fun w => w._id = worker_id)

/-- models `user_model_mongo.delete_user(user_id)`: if the user exists, delete
    one matching profile row from each of the unpartitioned `workers`,
    `employers` and `admins` collections, then delete the user row; returns
    the number of user rows deleted. -/
def delete_user (user_id : OID) (s : DB) : Nat × DB :=
  match s.users.find? (fun u => u._id = user_id) with
  | none => (0, s)
  | some _ =>
    let s1 := { s with
      workers := deleteOneBy (fun w => w.user_id = user_id) s.workers,
      employers := deleteOneBy (fun e => e.user_id = user_id) s.employers,
      admins := deleteOneBy (fun a => a.user_id = user_id) s.admins }
    (1, { s1 with users := deleteOneBy (fun u => u._id = user_id) s1.users })

/-- Fields of the request body accepted by `post_job` (`data.get(...)` reads;
    an absent key falls back to the documented default). -/
structure JobData where
  title : Option String
  required_skills : Option String
  description : Option String
  salary_min : Option Rat
  salary_max : Option Rat
  location : Option String
  deriving DecidableEq, Repr

/-- Python truthiness guard on a numeric salary field in `post_job`:
    `float(v) if data.get(k) else None` stores a missing value or a zero as
    null, anything else as the parsed number. -/
def coerceSalary : Option Rat → Option Rat
  | none => none
  | some v => if v = 0 then none else some v

/-- Insert a job document into the partition of the given year, creating the
    partition collection (appended to the listing) when the year is new. -/
def insertJobIntoPartition (year : Nat) (doc : JobDoc) :
    List (Nat × List JobDoc) → List (Nat × List JobDoc)
  | [] => [(year, [doc])]
  | (y, docs) :: rest =>
    if y = year then (y, docs ++ [doc]) :: rest
    else (y, docs) :: insertJobIntoPartition year doc rest

/-- The job document built by `post_job`: defaults for missing string fields,
    Python-truthiness-coerced salaries, `status="open"`,
    `posted_at = created_at = utcnow()`. -/
def postedJobDoc (employer_id : OID) (data : JobData) (s : DB) : JobDoc :=
  { _id := s.nextId, employer_id := employer_id,
    title := data.title.getD "",
    required_skills := data.required_skills.getD "",
    description := data.description.getD "",
    salary_min := coerceSalary data.salary_min,
    salary_max := coerceSalary data.salary_max,
    location := some (data.location.getD ""),
    status := "open", posted_at := s.clock, created_at := s.clock }

/-- models `job_model_mongo.post_job(employer_id, data)`: build the job
    document and insert it into the year partition of the current year.
    Returns the inserted id. -/
def post_job (employer_id : OID) (data : JobData) (s : DB) : OID × DB :=
  let doc := postedJobDoc employer_id data s
  (s.nextId,
    { s with jobParts := insertJobIntoPartition s.clockYear doc s.jobParts,
             nextId := s.nextId + 1 })

/-- models `job_model_mongo.get_job_by_id(job_id)`: scan every discovered job
    partition in order and return the first document with the id. -/
def get_job_by_id (job_id : OID) (s : DB) : Option JobDoc :=
  s.jobParts.findSome? (fun pd => pd.2.find? (fun j => j._id = job_id))

/-- Skill tokenisation of `worker_matched_jobs`:
    Python `[t.strip().lower() for t in skills.split(',') if t.strip()]`. -/
def pySplitSkills (skills : String) : List String :=
  (((splitOnChar ',' skills.data).map
    (fun t => String.mk ((trimChars t).map Char.toLower)))).filter (fun t => t ≠ "")

/-- The `$match` stage of the `worker_matched_jobs` pipeline: the job is open,
    some skill pattern substring-matches `required_skills` (case-insensitive),
    and — when a location filter is present — the job's location equals it
    exactly or is missing, null, or empty. -/
def matchedJobPred (patterns : List String) (location : Option String) (j : JobDoc) : Bool :=
  j.status = "open" && patterns.any (fun p => strContainsCI j.required_skills p) &&
  (match location with
   | none => true
   | some loc => j.location = some loc || j.location = none || j.location = some "")

/-- Row shape produced by the `$project` stage of `worker_matched_jobs`. -/
structure MatchedJob where
  job_id : String
  title : String
  location : Option String
  posted_at : Nat
  required_skills : String
  description : String
  salary_min : Option Rat
  salary_max : Option Rat
  application_status : Option String
  company_name : String
  company_phone : String
  company_location : String
  deriving DecidableEq, Repr

/-- Python `list.sort(key=posted_at, reverse=True)` and the pipeline's
    `$sort: posted_at: -1`, as a stable descending sort. -/
def sortByPostedAtDesc (l : List MatchedJob) : List MatchedJob :=
  List.insertionSort (fun a b => b.posted_at ≤ a.posted_at) l

/-- One output row of the `worker_matched_jobs` pipeline: the job joined with
    one matching employer, with the worker's application status (from the
    first matching application, else null) added by `$addFields`. -/
def matchedRow (s : DB) (worker_id : OID) (j : JobDoc) (e : EmployerDoc) : MatchedJob :=
  { job_id := toString j._id, title := j.title, location := j.location,
    posted_at := j.posted_at, required_skills := j.required_skills,
    description := j.description, salary_min := j.salary_min,
    salary_max := j.salary_max,
    application_status :=
      (s.applications.find? (fun a => a.job_id = j._id ∧ a.worker_id = worker_id)).map
        (fun a => a.application_status),
    company_name := e.company_name, company_phone := e.phone,
    company_location := e.location }

/-- The `worker_matched_jobs` aggregation pipeline, run against one year
    partition: `$match`, inner-join with `employers` (`$lookup` + `$unwind`),
    left-join with this worker's application (`$lookup` sub-pipeline +
    `$addFields` taking the first element's status), `$project`,
    `$sort: posted_at: -1`, `$limit: 100`. -/
def matchedPipelineOnPartition (s : DB) (worker_id : OID) (patterns : List String)
    (location : Option String) (docs : List JobDoc) : List MatchedJob :=
  let matched := docs.filter (matchedJobPred patterns location)
  let joined := matched.flatMap (fun j =>
    (s.employers.filter (fun e => e._id = j.employer_id)).map (fun e =>
      matchedRow s worker_id j e))
  (sortByPostedAtDesc joined).take 100

/-- models `job_model_mongo.worker_matched_jobs(worker_id, skills, location)`:
    run the match pipeline against every discovered year partition,
    concatenate, then sort by `posted_at` descending and truncate to 100. -/
def worker_matched_jobs (worker_id : OID) (skills : String) (location : Option String)
    (s : DB) : List MatchedJob :=
  let patterns := pySplitSkills skills
  let loc := pyStrOpt location
  let all := (s.jobParts.map (fun pd =>
    matchedPipelineOnPartition s worker_id patterns loc pd.2)).flatten
  (sortByPostedAtDesc all).take 100

/-- The `$match` conditions built by `search_jobs`: `status="open"`, ANDed
    with a text condition on title/description/required_skills, a location
    condition (case-insensitive substring, also accepting missing or null
    location), and an any-skill condition, each only when the corresponding
    argument is truthy. -/
def searchMatchPred (query_text location skills : Option String) (j : JobDoc) : Bool :=
  j.status = "open" &&
  (match query_text with
   | none => true
   | some t =>
     strContainsCI j.title t || strContainsCI j.description t ||
     strContainsCI j.required_skills t) &&
  (match location with
   | none => true
   | some loc =>
     match j.location with
     | some l => strContainsCI l loc
     | none => true) &&
  (match skills with
   | none => true
   | some sk =>
     let pats := ((splitOnChar ',' sk.data).map
       (fun t => String.mk (trimChars t))).filter (fun t => t ≠ "")
     if pats.isEmpty then true else pats.any (fun p => strContainsCI j.required_skills p))

/-- Row shape produced by the `$project` stage of `search_jobs`. -/
structure SearchResult where
  job_id : String
  title : String
  location : Option String
  posted_at : Nat
  required_skills : String
  description : String
  salary_min : Option Rat
  salary_max : Option Rat
  company_name : String
  deriving DecidableEq, Repr

/-- models `job_model_mongo.search_jobs(query_text, location, skills)`: build
    the match conditions, then run the pipeline (match, employer join,
    project, `$sort: posted_at: -1`, `$limit: 50`) via
    `aggregate("jobs", pipeline)` — that is, against the legacy unpartitioned
    `jobs` collection only, not against the discovered year partitions. -/
def search_jobs (query_text location skills : Option String) (s : DB) : List SearchResult :=
  let qt := pyStrOpt query_text
  let loc := pyStrOpt location
  let sk := pyStrOpt skills
  let matched := s.jobs.filter (searchMatchPred qt loc sk)
  let joined := matched.flatMap (fun j =>
    (s.employers.filter (fun e => e._id = j.employer_id)).map (fun e =>
      { job_id := toString j._id, title := j.title, location := j.location,
        posted_at := j.posted_at, required_skills := j.required_skills,
        description := j.description, salary_min := j.salary_min,
        salary_max := j.salary_max,
        company_name := e.company_name : SearchResult }))
  (List.insertionSort (fun a b : SearchResult => b.posted_at ≤ a.posted_at) joined).take 50

/-- Fields of the request body accepted by `update_job`; a `none` stands for a
    key that is absent or bound to Python `None` (both are skipped). -/
structure JobUpdate where
  title : Option String
  required_skills : Option String
  description : Option String
  salary_min : Option Rat
  salary_max : Option Rat
  location : Option String
  status : Option String
  deriving DecidableEq, Repr

/-- Whether `update_job` collected any field to set. -/
def hasUpdateFields (d : JobUpdate) : Bool :=
  d.title.isSome || d.required_skills.isSome || d.description.isSome ||
  d.salary_min.isSome || d.salary_max.isSome || d.location.isSome || d.status.isSome

/-- Apply the `$set` document built by `update_job` to a job document
    (`updated_at` is not part of the modelled document). -/
def applyJobUpdate (d : JobUpdate) (j : JobDoc) : JobDoc :=
  { j with
    title := d.title.getD j.title,
    required_skills := d.required_skills.getD j.required_skills,
    description := d.description.getD j.description,
    salary_min := match d.salary_min with | some v => some v | none => j.salary_min,
    salary_max := match d.salary_max with | some v => some v | none => j.salary_max,
    location := match d.location with | some l => some l | none => j.location,
    status := d.status.getD j.status }

/-- models `job_model_mongo.update_job(job_id, data)`: first verify the job
    exists via `find_one("jobs", ...)` — the legacy unpartitioned `jobs`
    collection — raising `ValueError("Job not found")` otherwise; then apply
    `update_one("jobs", ...)` with the collected fields and return the
    modified count. -/
def update_job (job_id : OID) (d : JobUpdate) (s : DB) : Except String Nat × DB :=
  match s.jobs.find? (fun j => j._id = job_id) with
  | none => (Except.error "Job not found", s)
  | some _ =>
    if hasUpdateFields d then
      (Except.ok 1,
        { s with jobs := updateOneBy (fun j => j._id = job_id) (applyJobUpdate d) s.jobs })
    else (Except.ok 0, s)

/-- The partition loop of `delete_job`: try `delete_one` on each discovered
    partition in order, stopping at the first partition that reports a
    deletion.  Returns whether any partition deleted a document. -/
def deleteFromJobPartitions (job_id : OID) :
    List (Nat × List JobDoc) → Bool × List (Nat × List JobDoc)
  | [] => (false, [])
  | (y, docs) :: rest =>
    if docs.any (fun j => j._id = job_id) then
      (true, (y, deleteOneBy (fun j => j._id = job_id) docs) :: rest)
    else
      let r := deleteFromJobPartitions job_id rest
      (r.1, (y, docs) :: r.2)

/-- models `job_model_mongo.delete_job(job_id)`: first
    `delete_many("applications", job_id=...)` — run unconditionally, before
    the job is located — then scan the partitions deleting the job, and return
    1 if some partition deleted it, else 0. -/
def delete_job (job_id : OID) (s : DB) : Nat × DB :=
  let apps := s.applications.filter (fun a => ¬ a.job_id = job_id)
  let r := deleteFromJobPartitions job_id s.jobParts
  (if r.1 then 1 else 0, { s with applications := apps, jobParts := r.2 })

/-- models `application_model_mongo.create_application(job_id, worker_id)`:
    reject with a duplicate error when an application for the pair exists
    (`find_one` pre-check), otherwise insert a `pending` application and
    return its id. -/
def create_application (job_id worker_id : OID) (s : DB) : Except String OID × DB :=
  match s.applications.find? (fun a => a.job_id = job_id ∧ a.worker_id = worker_id) with
  | some _ => (Except.error "Application already exists for this job", s)
  | none =>
    let doc : ApplicationDoc :=
      { _id := s.nextId, job_id := job_id, worker_id := worker_id,
        application_status := "pending", applied_at := s.clock, created_at := s.clock }
    (Except.ok s.nextId,
      { s with applications := s.applications ++ [doc], nextId := s.nextId + 1 })

/- General lemmas about the list-level storage primitives, shared by several
   claim proofs. -/

theorem findSome?_range_eq_some {α : Type} (f : Nat → Option α) (n p : Nat) (v : α)
    (hp : p < n) (hne : ∀ i, i < n → i ≠ p → f i = none) (hfp : f p = some v) :
    List.findSome? f (List.range n) = some v := by
  induction n with
  | zero => omega
  | succ n ih =>
    rw [List.range_succ, List.findSome?_append]
    by_cases hpn : p = n
    · have hnone : List.findSome? f (List.range n) = none := by
        rw [List.findSome?_eq_none_iff]
        intro i hi
        have hilt : i < n := List.mem_range.mp hi
        exact hne i (Nat.lt_succ_of_lt hilt) (by omega)
      rw [hnone, Option.none_or]
      rw [List.findSome?_cons]
      rw [hpn] at hfp
      rw [hfp]
  
    · have hplt : p < n := by omega
      rw [ih hplt (fun i hi hip => hne i (Nat.lt_succ_of_lt hi) hip)]
      exact Option.or_some

theorem findSome?_isSome_iff {α β : Type} (f : α → Option β) (l : List α) :
    (List.findSome? f l).isSome ↔ ∃ a ∈ l, (f a).isSome := by
  induction l with
  | nil => simp
  | cons x xs ih =>
    rw [List.findSome?_cons]
    cases hfx : f x with
    | some v =>
      exact iff_of_true rfl ⟨x, List.mem_cons_self x xs, by rw [hfx]; rfl⟩
    | none =>
      rw [ih]
      constructor
      · rintro ⟨a, ha, h⟩
        exact ⟨a, List.mem_cons_of_mem x ha, h⟩
      · rintro ⟨a, ha, h⟩
        rcases List.mem_cons.mp ha with hax | haxs
        · rw [hax, hfx] at h
          exact absurd h (by simp)
        · exact ⟨a, haxs, h⟩

theorem sum_map_range_bump (f g : Nat → Nat) (n p : Nat) (hp : p < n)
    (hbump : g p = f p + 1) (hsame : ∀ i, i ≠ p → g i = f i) :
    ((List.range n).map g).sum = ((List.range n).map f).sum + 1 := by
  induction n with
  | zero => omega
  | succ n ih =>
    rw [List.range_succ, List.map_append, List.map_append, List.sum_append, List.sum_append]
    by_cases hpn : p = n
    · subst hpn
      have heq : (List.range p).map g = (List.range p).map f := by
        apply List.map_congr_left
        intro i hi
        exact hsame i (by have := List.mem_range.mp hi; omega)
      rw [heq]
      simp only [List.map_cons, List.map_nil, List.sum_cons, List.sum_nil]
      rw [hbump]
      omega
    · have hplt : p < n := by omega
      rw [ih hplt]
      simp only [List.map_cons, List.map_nil, List.sum_cons, List.sum_nil]
      rw [hsame n (by omega)]
      omega

theorem deleteOneBy_of_no_match {α : Type} (p : α → Bool) (l : List α)
    (h : ∀ x ∈ l, ¬ p x = true) : deleteOneBy p l = l := by
  induction l with
  | nil => rfl
  | cons x xs ih =>
    rw [deleteOneBy, if_neg (h x (List.mem_cons_self x xs))]
    rw [ih (fun y hy => h y (List.mem_cons_of_mem x hy))]

theorem deleteOneBy_append_singleton {α : Type} (p : α → Bool) (l : List α) (d : α)
    (hl : ∀ x ∈ l, ¬ p x = true) (hd : p d = true) :
    deleteOneBy p (l ++ [d]) = l := by
  induction l with
  | nil => simp [deleteOneBy, hd]
  | cons x xs ih =>
    rw [List.cons_append, deleteOneBy, if_neg (hl x (List.mem_cons_self x xs))]
    rw [ih (fun y hy => hl y (List.mem_cons_of_mem x hy))]

theorem flatten_map_perm {α β : Type} (parts : List β) (g h : β → List α)
    (H : ∀ pd ∈ parts, (g pd).Perm (h pd)) :
    ((parts.map g).flatten).Perm ((parts.map h).flatten) := by
  induction parts with
  | nil => exact List.Perm.refl _
  | cons x xs ih =>
    simp only [List.map_cons, List.flatten_cons]
    exact (H x (List.mem_cons_self x xs)).append
      (ih (fun pd hpd => H pd (List.mem_cons_of_mem x hpd)))

theorem map_const_of_length_one {α γ : Type} (l : List α) (c : γ) (h : l.length = 1) :
    l.map (fun _ => c) = [c] := by
  cases l with
  | nil => simp at h
  | cons x xs =>
    cases xs with
    | nil => rfl
    | cons y ys => simp at h

theorem flatMap_eq_map_of_singleton {α β : Type} (l : List α) (F : α → List β) (f : α → β)
    (H : ∀ x ∈ l, F x = [f x]) : l.flatMap F = l.map f := by
  induction l with
  | nil => rfl
  | cons x xs ih =>
    rw [List.flatMap_cons, List.map_cons, H x (List.mem_cons_self x xs)]
    rw [ih (fun y hy => H y (List.mem_cons_of_mem x hy))]
    rfl

/- Lemmas about the partition router and the worker repository. -/

theorem hash_partition_lt_8 (pyHash : String → Int) (v : String) :
    hash_partition pyHash v < 8 := by
  unfold hash_partition
  have h0 : (0:Int) ≤ pyHash v % 8 := Int.emod_nonneg _ (by decide)
  have h8 : pyHash v % 8 < 8 := Int.emod_lt_of_pos _ (by decide)
  omega

/-- The state after the miss branch of `ensure_worker_row`: stage the new
    document in `workers`, copy it into its hash partition, delete the staging
    copy. -/
def ensureMissState (pyHash : String → Int) (u : OID) (fn sk : String) (s : DB) : DB :=
  { s with
    workers := deleteOneBy (fun w => w._id = s.nextId)
      (s.workers ++ [newWorkerDoc u fn sk s]),
    workerParts := fun i =>
      if i = workerPartIndex pyHash s.nextId then
        s.workerParts i ++ [newWorkerDoc u fn sk s]
      else s.workerParts i,
    nextId := s.nextId + 1 }

theorem ensure_worker_row_miss (pyHash : String → Int) (u : OID) (fn sk : String) (s : DB)
    (hmiss : _find_worker_in_partitions s (fun w => w.user_id = u) = none) :
    ensure_worker_row pyHash u fn sk s = (toString s.nextId, ensureMissState pyHash u fn sk s) := by
  unfold ensure_worker_row
  rw [hmiss]
  rfl

theorem ensure_worker_row_hit (pyHash : String → Int) (u : OID) (fn sk : String) (s : DB)
    (w : WorkerDoc)
    (hhit : _find_worker_in_partitions s (fun w => w.user_id = u) = some w) :
    ensure_worker_row pyHash u fn sk s = (toString w._id, s) := by
  unfold ensure_worker_row
  rw [hhit]

/-- C9: for every worker ID, `workerPartitionOf` is pure and stable — equal
    inputs give equal partition tags on every call — the tag lies in `[0, 8)`,
    and the resolved collection name is one of the 8 static worker partition
    collections returned by `get_all_worker_partitions`. -/
theorem C9_hash_partition_pure_stable_bounded (pyHash : String → Int) :
    (∀ v₁ v₂ : String, v₁ = v₂ → hash_partition pyHash v₁ = hash_partition pyHash v₂) ∧
    (∀ v : String, hash_partition pyHash v < 8) ∧
    (∀ w : OID, get_worker_partition_collection pyHash w ∈ get_all_worker_partitions) := by
  refine ⟨fun v₁ v₂ hv => by rw [hv], hash_partition_lt_8 pyHash, fun w => ?_⟩
  unfold get_worker_partition_collection get_all_worker_partitions
  exact List.mem_map.mpr
    ⟨hash_partition pyHash (toString w),
     List.mem_range.mpr (hash_partition_lt_8 pyHash (toString w)), rfl⟩

/-- C9 witness: the theorem applied to a concrete hash function, with its
    inner hypothesis discharged at concrete strings. -/
theorem C9_hash_partition_witness :
    hash_partition (fun t => (t.length : Int) - 27) "5" =
      hash_partition (fun t => (t.length : Int) - 27) "5" ∧
    hash_partition (fun t => (t.length : Int) - 27) "5" < 8 ∧
    get_worker_partition_collection (fun t => (t.length : Int) - 27) 5 ∈
      get_all_worker_partitions := by
  obtain ⟨h1, h2, h3⟩ := C9_hash_partition_pure_stable_bounded (fun t => (t.length : Int) - 27)
  exact ⟨h1 "5" "5" rfl, h2 "5", h3 5⟩

/-- C2: `ensure_worker_row` is idempotent.  Starting from a state with no
    worker profile for user `u` in any of the 8 hash partitions (and a fresh
    next ObjectId), two successive calls return the same worker id, exactly
    one physical worker record for `u` exists across the 8 partitions
    combined afterwards, and the unpartitioned `workers` staging collection
    is left exactly as it was. -/
theorem C2_ensure_worker_row_idempotent (pyHash : String → Int) (u : OID)
    (fn1 sk1 fn2 sk2 : String) (s : DB)
    (hno : ∀ i, i < 8 → ∀ w ∈ s.workerParts i, w.user_id ≠ u)
    (hfresh : ∀ w ∈ s.workers, w._id ≠ s.nextId) :
    (ensure_worker_row pyHash u fn2 sk2 (ensure_worker_row pyHash u fn1 sk1 s).2).1 =
      (ensure_worker_row pyHash u fn1 sk1 s).1 ∧
    workerCountForUser
      (ensure_worker_row pyHash u fn2 sk2 (ensure_worker_row pyHash u fn1 sk1 s).2).2 u = 1 ∧
    (ensure_worker_row pyHash u fn2 sk2 (ensure_worker_row pyHash u fn1 sk1 s).2).2.workers =
      s.workers := by
  have hmiss : _find_worker_in_partitions s (fun w => w.user_id = u) = none := by
    unfold _find_worker_in_partitions
    rw [List.findSome?_eq_none_iff]
    intro i hi
    rw [List.find?_eq_none]
    intro w hw
    simp only [decide_eq_true_eq]
    exact hno i (List.mem_range.mp hi) w hw
  have h1 := ensure_worker_row_miss pyHash u fn1 sk1 s hmiss
  rw [h1]
  have hp8 : workerPartIndex pyHash s.nextId < 8 := hash_partition_lt_8 pyHash _
  have hdocuid : (newWorkerDoc u fn1 sk1 s).user_id = u := rfl
  have hparts_ne : ∀ i, i ≠ workerPartIndex pyHash s.nextId →
      (ensureMissState pyHash u fn1 sk1 s).workerParts i = s.workerParts i := by
    intro i hip
    simp [ensureMissState, hip]
  have hparts_eq : (ensureMissState pyHash u fn1 sk1 s).workerParts
      (workerPartIndex pyHash s.nextId) =
      s.workerParts (workerPartIndex pyHash s.nextId) ++ [newWorkerDoc u fn1 sk1 s] := by
    simp [ensureMissState]
  have hfind_none : ∀ i, i < 8 →
      (s.workerParts i).find? (fun w => w.user_id = u) = none := by
    intro i hi
    rw [List.find?_eq_none]
    intro w hw
    simp only [decide_eq_true_eq]
    exact hno i hi w hw
  have hfind2 : _find_worker_in_partitions (ensureMissState pyHash u fn1 sk1 s)
      (fun w => w.user_id = u) = some (newWorkerDoc u fn1 sk1 s) := by
    unfold _find_worker_in_partitions
    apply findSome?_range_eq_some _ 8 (workerPartIndex pyHash s.nextId) _ hp8
    · intro i hi hip
      rw [hparts_ne i hip]
      exact hfind_none i hi
    · rw [hparts_eq, List.find?_append, hfind_none _ hp8, Option.none_or,
        List.find?_singleton]
      rw [if_pos (by simp [newWorkerDoc])]
  have h2 := ensure_worker_row_hit pyHash u fn2 sk2 (ensureMissState pyHash u fn1 sk1 s)
    (newWorkerDoc u fn1 sk1 s) hfind2
  rw [h2]
  have hworkers : (ensureMissState pyHash u fn1 sk1 s).workers = s.workers := by
    show deleteOneBy (fun w => w._id = s.nextId) (s.workers ++ [newWorkerDoc u fn1 sk1 s]) =
      s.workers
    apply deleteOneBy_append_singleton
    · intro x hx
      simp only [decide_eq_true_eq]
      exact hfresh x hx
    · simp [newWorkerDoc]
  refine ⟨rfl, ?_, hworkers⟩
  unfold workerCountForUser
  have hbump : ((ensureMissState pyHash u fn1 sk1 s).workerParts
        (workerPartIndex pyHash s.nextId)).countP (fun w => w.user_id = u) =
      (s.workerParts (workerPartIndex pyHash s.nextId)).countP (fun w => w.user_id = u) + 1 := by
    rw [hparts_eq, List.countP_append]
    simp [List.countP, List.countP.go, newWorkerDoc]
  have hsame : ∀ i, i ≠ workerPartIndex pyHash s.nextId →
      ((ensureMissState pyHash u fn1 sk1 s).workerParts i).countP (fun w => w.user_id = u) =
      (s.workerParts i).countP (fun w => w.user_id = u) := by
    intro i hip
    rw [hparts_ne i hip]
  rw [sum_map_range_bump (fun i => (s.workerParts i).countP (fun w => w.user_id = u))
    (fun i => ((ensureMissState pyHash u fn1 sk1 s).workerParts i).countP
      (fun w => w.user_id = u)) 8 (workerPartIndex pyHash s.nextId) hp8 hbump hsame]
  have hzero : ((List.range 8).map
      (fun i => (s.workerParts i).countP (fun w => w.user_id = u))).sum = 0 := by
    apply List.sum_eq_zero
    intro x hx
    obtain ⟨i, hi, rfl⟩ := List.mem_map.mp hx
    rw [List.countP_eq_zero]
    intro w hw
    simp only [decide_eq_true_eq]
    exact hno i (List.mem_range.mp hi) w hw
  rw [hzero]

/-- C2 witness: the theorem applied at a concrete hash function, user id and
    empty initial state. -/
theorem C2_ensure_worker_row_witness :
    (ensure_worker_row (fun t => (t.length : Int))
        5 "Asha" "cooking"
        (ensure_worker_row (fun t => (t.length : Int)) 5 "Asha" "cooking"
          { users := [], workers := [], workerParts := fun _ => [], employers := [],
            admins := [], applications := [], jobs := [], jobParts := [],
            nextId := 41, clock := 7, clockYear := 2024 }).2).1 =
      (ensure_worker_row (fun t => (t.length : Int)) 5 "Asha" "cooking"
        { users := [], workers := [], workerParts := fun _ => [], employers := [],
          admins := [], applications := [], jobs := [], jobParts := [],
          nextId := 41, clock := 7, clockYear := 2024 }).1 ∧
    workerCountForUser
      (ensure_worker_row (fun t => (t.length : Int)) 5 "Asha" "cooking"
        (ensure_worker_row (fun t => (t.length : Int)) 5 "Asha" "cooking"
          { users := [], workers := [], workerParts := fun _ => [], employers := [],
            admins := [], applications := [], jobs := [], jobParts := [],
            nextId := 41, clock := 7, clockYear := 2024 }).2).2 5 = 1 ∧
    (ensure_worker_row (fun t => (t.length : Int)) 5 "Asha" "cooking"
        (ensure_worker_row (fun t => (t.length : Int)) 5 "Asha" "cooking"
          { users := [], workers := [], workerParts := fun _ => [], employers := [],
            admins := [], applications := [], jobs := [], jobParts := [],
            nextId := 41, clock := 7, clockYear := 2024 }).2).2.workers = [] :=
  C2_ensure_worker_row_idempotent (fun t => (t.length : Int)) 5 "Asha" "cooking"
    "Asha" "cooking"
    { users := [], workers := [], workerParts := fun _ => [], employers := [],
      admins := [], applications := [], jobs := [], jobParts := [],
      nextId := 41, clock := 7, clockYear := 2024 }
    (fun _ _ _ hw => nomatch hw) (fun _ hw => nomatch hw)

/-- C6: point lookup of a worker by id.  If the worker is absent from all 8
    partitions the lookup returns `none`; a worker record stored in the
    partition computed from its id hash is always found; and any record the
    lookup returns has the requested id (so a fallback hit is a genuine hit,
    taken from the first partition containing the id in
    `get_all_worker_partitions` order). -/
theorem C6_get_worker_by_id_lookup (pyHash : String → Int) (s : DB) (wid : OID) :
    ((∀ i, i < 8 → ∀ w ∈ s.workerParts i, w._id ≠ wid) →
      get_worker_by_id pyHash wid s = none) ∧
    (∀ r ∈ s.workerParts (workerPartIndex pyHash wid), r._id = wid →
      ∃ w, get_worker_by_id pyHash wid s = some w ∧ w._id = wid) ∧
    (∀ w, get_worker_by_id pyHash wid s = some w → w._id = wid) := by
  have hp8 : workerPartIndex pyHash wid < 8 := hash_partition_lt_8 pyHash _
  refine ⟨?_, ?_, ?_⟩
  · intro h
    have hdirect : (s.workerParts (workerPartIndex pyHash wid)).find?
        (fun w => w._id = wid) = none := by
      rw [List.find?_eq_none]
      intro w hw
      simp only [decide_eq_true_eq]
      exact h _ hp8 w hw
    unfold get_worker_by_id
    rw [hdirect]
    unfold _find_worker_in_partitions
    rw [List.findSome?_eq_none_iff]
    intro i hi
    rw [List.find?_eq_none]
    intro w hw
    simp only [decide_eq_true_eq]
    exact h i (List.mem_range.mp hi) w hw
  · intro r hr hrid
    cases hfind : (s.workerParts (workerPartIndex pyHash wid)).find?
        (fun w => w._id = wid) with
    | some w =>
      refine ⟨w, ?_, ?_⟩
      · unfold get_worker_by_id
        rw [hfind]
      · have := List.find?_some hfind
        simpa using this
    | none =>
      exfalso
      have := List.find?_eq_none.mp hfind r hr
      simp only [decide_eq_true_eq] at this
      exact this hrid
  · intro w hw
    unfold get_worker_by_id at hw
    cases hfind : (s.workerParts (workerPartIndex pyHash wid)).find?
        (fun w => w._id = wid) with
    | some w0 =>
      rw [hfind] at hw
      have hpred := List.find?_some hfind
      simp only [decide_eq_true_eq] at hpred
      cases hw
      exact hpred
    | none =>
      rw [hfind] at hw
      unfold _find_worker_in_partitions at hw
      obtain ⟨i, _, hfi⟩ := List.exists_of_findSome?_eq_some hw
      have hpred := List.find?_some hfi
      simpa using hpred

/-- C6 witness: the theorem applied to a concrete state holding one worker in
    its hash-computed partition (hypotheses of the stored-record and returned-
    record conjuncts discharged there), and to the empty state (hypothesis of
    the absent-everywhere conjunct discharged there). -/
theorem C6_get_worker_by_id_witness :
    (∃ w, get_worker_by_id (fun _ => 2) 9
        { users := [], workers := [],
          workerParts := fun i => if i = 2 then
            [{ _id := 9, user_id := 4, full_name := "R", skills := "s", phone := "",
               location := "", experience := "", created_at := 0 }] else [],
          employers := [], admins := [], applications := [], jobs := [], jobParts := [],
          nextId := 10, clock := 0, clockYear := 2024 } = some w ∧ w._id = 9) ∧
    get_worker_by_id (fun _ => 2) 9
        { users := [], workers := [], workerParts := fun _ => [],
          employers := [], admins := [], applications := [], jobs := [], jobParts := [],
          nextId := 10, clock := 0, clockYear := 2024 } = none :=
  And.intro
    ((C6_get_worker_by_id_lookup (fun _ => 2)
      { users := [], workers := [],
        workerParts := fun i => if i = 2 then
          [{ _id := 9, user_id := 4, full_name := "R", skills := "s", phone := "",
             location := "", experience := "", created_at := 0 }] else [],
        employers := [], admins := [], applications := [], jobs := [], jobParts := [],
        nextId := 10, clock := 0, clockYear := 2024 } 9).2.1
      { _id := 9, user_id := 4, full_name := "R", skills := "s", phone := "",
        location := "", experience := "", created_at := 0 }
      (by decide) (by decide))
    ((C6_get_worker_by_id_lookup (fun _ => 2)
      { users := [], workers := [], workerParts := fun _ => [],
        employers := [], admins := [], applications := [], jobs := [], jobParts := [],
        nextId := 10, clock := 0, clockYear := 2024 } 9).1
      (fun _ _ _ hw => nomatch hw))

/-- C7: application uniqueness per (job, worker) pair.  When an application
    for the pair already exists (count 1), a second `create_application`
    returns the duplicate error, leaves the state unchanged, and the count
    for the pair is still 1. -/
theorem C7_create_application_duplicate (s : DB) (j w : OID)
    (h : s.applications.countP (fun a => a.job_id = j ∧ a.worker_id = w) = 1) :
    (create_application j w s).1 =
      Except.error "Application already exists for this job" ∧
    (create_application j w s).2 = s ∧
    (create_application j w s).2.applications.countP
      (fun a => a.job_id = j ∧ a.worker_id = w) = 1 := by
  have hpos : 0 < s.applications.countP (fun a => a.job_id = j ∧ a.worker_id = w) := by
    omega
  have hsome : (s.applications.find? (fun a => a.job_id = j ∧ a.worker_id = w)).isSome := by
    rw [List.find?_isSome]
    exact List.countP_pos_iff.mp hpos
  obtain ⟨a, ha⟩ := Option.isSome_iff_exists.mp hsome
  unfold create_application
  rw [ha]
  exact ⟨rfl, rfl, h⟩

/-- C7 witness: the theorem applied to a concrete state already holding the
    application for the pair (3, 4). -/
theorem C7_create_application_witness :
    (create_application 3 4
      { users := [], workers := [], workerParts := fun _ => [], employers := [],
        admins := [],
        applications := [{ _id := 8, job_id := 3, worker_id := 4,
                           application_status := "pending", applied_at := 1,
                           created_at := 1 }],
        jobs := [], jobParts := [], nextId := 10, clock := 2, clockYear := 2024 }).1 =
      Except.error "Application already exists for this job" ∧
    (create_application 3 4
      { users := [], workers := [], workerParts := fun _ => [], employers := [],
        admins := [],
        applications := [{ _id := 8, job_id := 3, worker_id := 4,
                           application_status := "pending", applied_at := 1,
                           created_at := 1 }],
        jobs := [], jobParts := [], nextId := 10, clock := 2, clockYear := 2024 }).2 =
      { users := [], workers := [], workerParts := fun _ => [], employers := [],
        admins := [],
        applications := [{ _id := 8, job_id := 3, worker_id := 4,
                           application_status := "pending", applied_at := 1,
                           created_at := 1 }],
        jobs := [], jobParts := [], nextId := 10, clock := 2, clockYear := 2024 } ∧
    (create_application 3 4
      { users := [], workers := [], workerParts := fun _ => [], employers := [],
        admins := [],
        applications := [{ _id := 8, job_id := 3, worker_id := 4,
                           application_status := "pending", applied_at := 1,
                           created_at := 1 }],
        jobs := [], jobParts := [], nextId := 10, clock := 2, clockYear := 2024 }).2.applications.countP
      (fun a => a.job_id = 3 ∧ a.worker_id = 4) = 1 :=
  C7_create_application_duplicate
    { users := [], workers := [], workerParts := fun _ => [], employers := [],
      admins := [],
      applications := [{ _id := 8, job_id := 3, worker_id := 4,
                         application_status := "pending", applied_at := 1,
                         created_at := 1 }],
      jobs := [], jobParts := [], nextId := 10, clock := 2, clockYear := 2024 }
    3 4 (by decide)

theorem deleteFromJobPartitions_of_absent (j : OID) (parts : List (Nat × List JobDoc))
    (h : ∀ pd ∈ parts, ∀ d ∈ pd.2, d._id ≠ j) :
    deleteFromJobPartitions j parts = (false, parts) := by
  induction parts with
  | nil => rfl
  | cons x xs ih =>
    obtain ⟨y, docs⟩ := x
    have hany : docs.any (fun d => d._id = j) = false := by
      rw [List.any_eq_false]
      intro d hd
      simp only [decide_eq_true_eq]
      exact h (y, docs) (List.mem_cons_self _ _) d hd
    rw [deleteFromJobPartitions, if_neg (by rw [hany]; exact Bool.false_ne_true)]
    rw [ih (fun pd hpd d hd => h pd (List.mem_cons_of_mem _ hpd) d hd)]

/-- C10: `delete_job` on an id absent from every year partition still deletes
    every application referencing that id — the application cascade runs
    before the job is located — and then reports 0 jobs deleted, leaving the
    job partitions untouched. -/
theorem C10_delete_job_cascade_on_not_found (s : DB) (j : OID)
    (h : ∀ pd ∈ s.jobParts, ∀ d ∈ pd.2, d._id ≠ j) :
    (delete_job j s).1 = 0 ∧
    (delete_job j s).2.applications = s.applications.filter (fun a => ¬ a.job_id = j) ∧
    (delete_job j s).2.jobParts = s.jobParts := by
  unfold delete_job
  rw [deleteFromJobPartitions_of_absent j s.jobParts h]
  exact ⟨rfl, rfl, rfl⟩

/-- C10 witness: a concrete state whose `applications` collection holds one
    application for the absent job id 9; the call reports 0 yet empties the
    collection. -/
theorem C10_delete_job_witness :
    (delete_job 9
      { users := [], workers := [], workerParts := fun _ => [], employers := [],
        admins := [],
        applications := [{ _id := 1, job_id := 9, worker_id := 2,
                           application_status := "pending", applied_at := 0,
                           created_at := 0 }],
        jobs := [],
        jobParts := [(2024, [{ _id := 3, employer_id := 4, title := "t",
                               required_skills := "r", description := "d",
                               salary_min := none, salary_max := none,
                               location := some "L", status := "open",
                               posted_at := 1, created_at := 1 }])],
        nextId := 10, clock := 2, clockYear := 2024 }).1 = 0 ∧
    (delete_job 9
      { users := [], workers := [], workerParts := fun _ => [], employers := [],
        admins := [],
        applications := [{ _id := 1, job_id := 9, worker_id := 2,
                           application_status := "pending", applied_at := 0,
                           created_at := 0 }],
        jobs := [],
        jobParts := [(2024, [{ _id := 3, employer_id := 4, title := "t",
                               required_skills := "r", description := "d",
                               salary_min := none, salary_max := none,
                               location := some "L", status := "open",
                               posted_at := 1, created_at := 1 }])],
        nextId := 10, clock := 2, clockYear := 2024 }).2.applications =
      [{ _id := 1, job_id := 9, worker_id := 2, application_status := "pending",
         applied_at := 0, created_at := 0 }].filter (fun a => ¬ a.job_id = 9) ∧
    (delete_job 9
      { users := [], workers := [], workerParts := fun _ => [], employers := [],
        admins := [],
        applications := [{ _id := 1, job_id := 9, worker_id := 2,
                           application_status := "pending", applied_at := 0,
                           created_at := 0 }],
        jobs := [],
        jobParts := [(2024, [{ _id := 3, employer_id := 4, title := "t",
                               required_skills := "r", description := "d",
                               salary_min := none, salary_max := none,
                               location := some "L", status := "open",
                               posted_at := 1, created_at := 1 }])],
        nextId := 10, clock := 2, clockYear := 2024 }).2.jobParts =
      [(2024, [{ _id := 3, employer_id := 4, title := "t", required_skills := "r",
                 description := "d", salary_min := none, salary_max := none,
                 location := some "L", status := "open", posted_at := 1,
                 created_at := 1 }])] :=
  C10_delete_job_cascade_on_not_found
    { users := [], workers := [], workerParts := fun _ => [], employers := [],
      admins := [],
      applications := [{ _id := 1, job_id := 9, worker_id := 2,
                         application_status := "pending", applied_at := 0,
                         created_at := 0 }],
      jobs := [],
      jobParts := [(2024, [{ _id := 3, employer_id := 4, title := "t",
                             required_skills := "r", description := "d",
                             salary_min := none, salary_max := none,
                             location := some "L", status := "open",
                             posted_at := 1, created_at := 1 }])],
      nextId := 10, clock := 2, clockYear := 2024 }
    9 (by decide)

/- Concrete fixtures for the claims about the legacy-collection bugs. -/

/-- A worker profile for user 1, as `ensure_worker_row` stores it. -/
def wdocC3 : WorkerDoc :=
  { _id := 2, user_id := 1, full_name := "Asha", skills := "cooking", phone := "",
    location := "", experience := "", created_at := 0 }

/-- A hash function under which worker id 2 is assigned partition 3. -/
def pyHashC3 : String → Int := fun _ => 3

/-- State holding user 1 with their worker profile stored in hash partition 3
    — the partition `workerPartIndex pyHashC3` assigns to `wdocC3._id` — and
    an empty `workers` staging collection, exactly as `ensure_worker_row`
    leaves things. -/
def sC3 : DB :=
  { users := [{ _id := 1, email := "a@x", role := "worker" }],
    workers := [],
    workerParts := fun i => if i = 3 then [wdocC3] else [],
    employers := [], admins := [], applications := [], jobs := [], jobParts := [],
    nextId := 10, clock := 5, clockYear := 2024 }

/-- C3 (code bug): deleting a user does not cascade to the partitioned worker
    profile.  In `sC3` the worker profile of user 1 sits in its assigned hash
    partition, yet after `delete_user 1` succeeds (returns 1, user row gone)
    the profile still exists in the partitions — `delete_user` only issues
    `delete_one("workers", ...)` against the unpartitioned staging collection. -/
theorem C3_delete_user_worker_cascade_bug :
    sC3.workerParts (workerPartIndex pyHashC3 wdocC3._id) = [wdocC3] ∧
    (delete_user 1 sC3).1 = 1 ∧
    (delete_user 1 sC3).2.users = [] ∧
    workerCountForUser (delete_user 1 sC3).2 1 = 1 := by
  refine ⟨by decide, rfl, rfl, by decide⟩

/-- The job used for the `update_job` claim, stored in partition `jobs_2024`. -/
def jobC4 : JobDoc :=
  { _id := 7, employer_id := 4, title := "cook needed", required_skills := "cooking",
    description := "cook food", salary_min := some 100, salary_max := some 200,
    location := some "Mumbai", status := "open", posted_at := 1, created_at := 1 }

/-- State whose only job lives in the `jobs_2024` partition; the legacy
    unpartitioned `jobs` collection is empty, as `post_job` leaves it. -/
def sC4 : DB :=
  { users := [], workers := [], workerParts := fun _ => [], employers := [],
    admins := [], applications := [], jobs := [], jobParts := [(2024, [jobC4])],
    nextId := 10, clock := 5, clockYear := 2024 }

/-- The field update supplied to `update_job`. -/
def updC4 : JobUpdate :=
  { title := some "new title", required_skills := none, description := none,
    salary_min := none, salary_max := none, location := none, status := none }

/-- C4 (code bug): `update_job` does not target the partition owning the job.
    Job 7 is stored in the `jobs_2024` partition of `sC4`, but `update_job`
    verifies existence via `find_one("jobs", ...)` on the legacy unpartitioned
    collection and therefore raises `ValueError("Job not found")`, leaving the
    partitions unchanged. -/
theorem C4_update_job_wrong_collection_bug :
    jobC4._id = 7 ∧
    jobC4 ∈ allPartitionJobs sC4 ∧
    (update_job 7 updC4 sC4).1 = Except.error "Job not found" ∧
    (update_job 7 updC4 sC4).2.jobParts = sC4.jobParts := by
  refine ⟨rfl, by decide, rfl, rfl⟩

/-- The open job stored in partition `jobs_2024` for the search claim; its
    title, description and skills all contain the search text "cook". -/
def jobC1 : JobDoc :=
  { _id := 7, employer_id := 50, title := "cook needed", required_skills := "cooking",
    description := "cook food daily", salary_min := some 100, salary_max := some 200,
    location := some "Mumbai", status := "open", posted_at := 1, created_at := 1 }

/-- The employer of `jobC1`, present so the pipeline's employer join cannot be
    the reason the job is missing from the results. -/
def empC1 : EmployerDoc :=
  { _id := 50, user_id := 60, company_name := "Dhaba", employer_name := "E",
    location := "Mumbai", phone := "123" }

/-- State with one matching open job in the `jobs_2024` partition and an empty
    legacy `jobs` collection, as `post_job` leaves things. -/
def sC1 : DB :=
  { users := [], workers := [], workerParts := fun _ => [], employers := [empC1],
    admins := [], applications := [], jobs := [], jobParts := [(2024, [jobC1])],
    nextId := 100, clock := 20, clockYear := 2024 }

/-- C1 (code bug): `search_jobs` does not fan out over the discovered year
    partitions.  In `sC1` the open job 7 satisfies the text match for "cook"
    and sits in partition `jobs_2024` (with its employer present), yet
    `search_jobs` returns no results, because the pipeline is issued only
    against the legacy unpartitioned `jobs` collection. -/
theorem C1_search_jobs_no_fanout_bug :
    searchMatchPred (some "cook") none none jobC1 = true ∧
    jobC1 ∈ allPartitionJobs sC1 ∧
    jobC1.status = "open" ∧
    search_jobs (some "cook") none none sC1 = [] := by
  refine ⟨by decide, by decide, rfl, rfl⟩

theorem get_job_by_id_after_insert (year : Nat) (doc : JobDoc)
    (parts : List (Nat × List JobDoc))
    (hfresh : ∀ pd ∈ parts, ∀ jd ∈ pd.2, jd._id ≠ doc._id) :
    List.findSome? (fun pd => pd.2.find? (fun jd => jd._id = doc._id))
      (insertJobIntoPartition year doc parts) = some doc := by
  induction parts with
  | nil =>
    rw [insertJobIntoPartition, List.findSome?_cons]
    simp [List.find?_singleton]
  | cons x xs ih =>
    obtain ⟨y, docs⟩ := x
    have hdocs : docs.find? (fun jd => jd._id = doc._id) = none := by
      rw [List.find?_eq_none]
      intro jd hjd
      simp only [decide_eq_true_eq]
      exact hfresh (y, docs) (List.mem_cons_self _ _) jd hjd
    rw [insertJobIntoPartition]
    by_cases hy : y = year
    · rw [if_pos hy, List.findSome?_cons]
      have : (docs ++ [doc]).find? (fun jd => jd._id = doc._id) = some doc := by
        rw [List.find?_append, hdocs, Option.none_or, List.find?_singleton]
        simp
      rw [this]
    · rw [if_neg hy, List.findSome?_cons, hdocs]
      exact ih (fun pd hpd jd hjd => hfresh pd (List.mem_cons_of_mem _ hpd) jd hjd)

/-- The input used for the C8 counterexample: both salaries supplied, but in
    the wrong order (min 100 above max 50). -/
def dataC8 : JobData :=
  { title := some "Cook", required_skills := some "cooking",
    description := some "cook food", salary_min := some 100, salary_max := some 50,
    location := some "Mumbai" }

/-- Empty initial state for the C8 counterexample. -/
def sC8 : DB :=
  { users := [], workers := [], workerParts := fun _ => [], employers := [],
    admins := [], applications := [], jobs := [], jobParts := [],
    nextId := 1, clock := 4, clockYear := 2024 }

/-- C8 counterexample: `post_job` accepts `salary_min = 100, salary_max = 50`
    without validation, and `get_job_by_id` on the returned id retrieves the
    record with both salaries given and `salary_min > salary_max` — the
    round-trip claim's ordering clause fails. -/
theorem C8_roundtrip_salary_order_counterexample :
    get_job_by_id (post_job 3 dataC8 sC8).1 (post_job 3 dataC8 sC8).2 =
      some (postedJobDoc 3 dataC8 sC8) ∧
    (postedJobDoc 3 dataC8 sC8).salary_min = some 100 ∧
    (postedJobDoc 3 dataC8 sC8).salary_max = some 50 ∧
    ¬ (100 : Rat) ≤ 50 := by
  refine ⟨by decide, by decide, by decide, by decide⟩

/-- C8 amended: the `post_job` → `get_job_by_id` round-trip retrieves the
    stored record with `status = "open"` and every supplied field preserved
    (a supplied salary equal to 0 is stored as null by the Python truthiness
    guard; nonzero supplied salaries come back exactly); the ordering
    `salary_min ≤ salary_max` is not validated and holds only when the caller
    supplies it.  Requires the generated ObjectId to be fresh, which the
    storage layer guarantees. -/
theorem C8_amended_post_job_roundtrip (s : DB) (emp : OID) (d : JobData)
    (hfresh : ∀ pd ∈ s.jobParts, ∀ jd ∈ pd.2, jd._id ≠ s.nextId) :
    ∃ jrec : JobDoc,
      get_job_by_id (post_job emp d s).1 (post_job emp d s).2 = some jrec ∧
      jrec.employer_id = emp ∧
      jrec.title = d.title.getD "" ∧
      jrec.required_skills = d.required_skills.getD "" ∧
      jrec.description = d.description.getD "" ∧
      jrec.location = some (d.location.getD "") ∧
      jrec.status = "open" ∧
      jrec.salary_min = coerceSalary d.salary_min ∧
      jrec.salary_max = coerceSalary d.salary_max ∧
      (d.salary_min ≠ some 0 → jrec.salary_min = d.salary_min) ∧
      (d.salary_max ≠ some 0 → jrec.salary_max = d.salary_max) := by
  refine ⟨postedJobDoc emp d s, ?_, rfl, rfl, rfl, rfl, rfl, rfl, rfl, rfl, ?_, ?_⟩
  · show List.findSome?
      (fun pd => pd.2.find? (fun jd => jd._id = (postedJobDoc emp d s)._id))
      (insertJobIntoPartition s.clockYear (postedJobDoc emp d s) s.jobParts) =
      some (postedJobDoc emp d s)
    exact get_job_by_id_after_insert s.clockYear (postedJobDoc emp d s) s.jobParts hfresh
  · intro hmin
    show coerceSalary d.salary_min = d.salary_min
    cases hd : d.salary_min with
    | none => rfl
    | some v =>
      rw [hd] at hmin
      show (if v = 0 then none else some v) = some v
      rw [if_neg (fun hv => hmin (by rw [hv]))]
  · intro hmax
    show coerceSalary d.salary_max = d.salary_max
    cases hd : d.salary_max with
    | none => rfl
    | some v =>
      rw [hd] at hmax
      show (if v = 0 then none else some v) = some v
      rw [if_neg (fun hv => hmax (by rw [hv]))]

/-- C8 witness: the amended theorem applied at a concrete state and input
    with ordered nonzero salaries. -/
theorem C8_amended_roundtrip_witness :
    ∃ jrec : JobDoc,
      get_job_by_id
        (post_job 3
          { title := some "Cook", required_skills := some "cooking",
            description := some "cook food", salary_min := some 40,
            salary_max := some 60, location := some "Pune" } sC8).1
        (post_job 3
          { title := some "Cook", required_skills := some "cooking",
            description := some "cook food", salary_min := some 40,
            salary_max := some 60, location := some "Pune" } sC8).2 = some jrec ∧
      jrec.employer_id = 3 ∧
      jrec.title = (some "Cook").getD "" ∧
      jrec.required_skills = (some "cooking").getD "" ∧
      jrec.description = (some "cook food").getD "" ∧
      jrec.location = some ((some "Pune").getD "") ∧
      jrec.status = "open" ∧
      jrec.salary_min = coerceSalary (some 40) ∧
      jrec.salary_max = coerceSalary (some 60) ∧
      (some (40 : Rat) ≠ some 0 → jrec.salary_min = some 40) ∧
      (some (60 : Rat) ≠ some 0 → jrec.salary_max = some 60) :=
  C8_amended_post_job_roundtrip sC8 3
    { title := some "Cook", required_skills := some "cooking",
      description := some "cook food", salary_min := some 40,
      salary_max := some 60, location := some "Pune" }
    (fun _ hpd => nomatch hpd)

theorem sortByPostedAtDesc_perm (l : List MatchedJob) : (sortByPostedAtDesc l).Perm l :=
  List.perm_insertionSort _ l

theorem sortByPostedAtDesc_length (l : List MatchedJob) :
    (sortByPostedAtDesc l).length = l.length :=
  (sortByPostedAtDesc_perm l).length_eq

theorem sortByPostedAtDesc_sorted (l : List MatchedJob) :
    List.Sorted (fun a b => b.posted_at ≤ a.posted_at) (sortByPostedAtDesc l) := by
  have ht : IsTrans MatchedJob (fun a b => b.posted_at ≤ a.posted_at) :=
    ⟨fun _ _ _ hab hbc => le_trans hbc hab⟩
  have hto : IsTotal MatchedJob (fun a b => b.posted_at ≤ a.posted_at) :=
    ⟨fun a b => le_total b.posted_at a.posted_at⟩
  exact List.sorted_insertionSort _ _

theorem matchedPipeline_ids (s : DB) (wid : OID) (pats : List String)
    (loc : Option String) (docs : List JobDoc)
    (hall : ∀ jd ∈ docs, matchedJobPred pats loc jd = true)
    (hemp : ∀ jd ∈ docs,
      (s.employers.filter (fun e => e._id = jd.employer_id)).length = 1)
    (hlen : docs.length ≤ 100) :
    ((matchedPipelineOnPartition s wid pats loc docs).map (fun r => r.job_id)).Perm
      (docs.map (fun jd => toString jd._id)) ∧
    (matchedPipelineOnPartition s wid pats loc docs).length = docs.length := by
  have hfilter : docs.filter (matchedJobPred pats loc) = docs :=
    List.filter_eq_self.mpr hall
  have hpipe : matchedPipelineOnPartition s wid pats loc docs =
      (sortByPostedAtDesc (docs.flatMap (fun j =>
        (s.employers.filter (fun e => e._id = j.employer_id)).map
          (fun e => matchedRow s wid j e)))).take 100 := by
    unfold matchedPipelineOnPartition
    rw [hfilter]
  have hids : (docs.flatMap (fun j =>
      (s.employers.filter (fun e => e._id = j.employer_id)).map
        (fun e => matchedRow s wid j e))).map (fun r => r.job_id) =
      docs.map (fun jd => toString jd._id) := by
    rw [List.map_flatMap]
    apply flatMap_eq_map_of_singleton
    intro j hj
    rw [List.map_map]
    show (s.employers.filter (fun e => e._id = j.employer_id)).map
      (fun _ => toString j._id) = [toString j._id]
    exact map_const_of_length_one _ _ (hemp j hj)
  have hjoinlen : (docs.flatMap (fun j =>
      (s.employers.filter (fun e => e._id = j.employer_id)).map
        (fun e => matchedRow s wid j e))).length = docs.length := by
    have hcl := congrArg List.length hids
    rwa [List.length_map, List.length_map] at hcl
  have hsortlen : (sortByPostedAtDesc (docs.flatMap (fun j =>
      (s.employers.filter (fun e => e._id = j.employer_id)).map
        (fun e => matchedRow s wid j e)))).length = docs.length := by
    rw [sortByPostedAtDesc_length]
    exact hjoinlen
  have htake : (sortByPostedAtDesc (docs.flatMap (fun j =>
      (s.employers.filter (fun e => e._id = j.employer_id)).map
        (fun e => matchedRow s wid j e)))).take 100 =
      sortByPostedAtDesc (docs.flatMap (fun j =>
        (s.employers.filter (fun e => e._id = j.employer_id)).map
          (fun e => matchedRow s wid j e))) := by
    apply List.take_of_length_le
    rw [hsortlen]
    exact hlen
  rw [hpipe, htake]
  constructor
  · exact (((sortByPostedAtDesc_perm _).map (fun r => r.job_id)).trans
      (by rw [hids]))
  · exact hsortlen

/-- C5: merge correctness and ordering of `worker_matched_jobs`.  When every
    job across the year partitions matches the skill/location predicate and is
    open, each job's employer is present exactly once, and the total number of
    jobs is within the cap of 100, the result is exactly the union of the
    partitions — the multiset of returned `job_id`s equals the multiset of all
    stored job ids, so no duplicates and no losses — and is sorted by
    `posted_at` descending after the global merge, for every per-partition
    arrangement of the jobs. -/
theorem C5_worker_matched_jobs_merge (s : DB) (wid : OID) (skills : String)
    (loc : Option String)
    (hall : ∀ jd ∈ allPartitionJobs s,
      matchedJobPred (pySplitSkills skills) (pyStrOpt loc) jd = true)
    (hemp : ∀ jd ∈ allPartitionJobs s,
      (s.employers.filter (fun e => e._id = jd.employer_id)).length = 1)
    (hcount : totalPartitionJobs s ≤ 100) :
    ((worker_matched_jobs wid skills loc s).map (fun r => r.job_id)).Perm
      ((allPartitionJobs s).map (fun jd => toString jd._id)) ∧
    List.Sorted (fun a b : MatchedJob => b.posted_at ≤ a.posted_at)
      (worker_matched_jobs wid skills loc s) := by
  have hmem : ∀ pd ∈ s.jobParts, ∀ jd ∈ pd.2, jd ∈ allPartitionJobs s := by
    intro pd hpd jd hjd
    exact List.mem_flatMap.mpr ⟨pd, hpd, hjd⟩
  have hplen : ∀ pd ∈ s.jobParts, pd.2.length ≤ 100 := by
    intro pd hpd
    have hle : pd.2.length ≤ totalPartitionJobs s := by
      apply List.single_le_sum (fun x _ => Nat.zero_le x)
      exact List.mem_map.mpr ⟨pd, hpd, rfl⟩
    omega
  have hper : ∀ pd ∈ s.jobParts,
      ((matchedPipelineOnPartition s wid (pySplitSkills skills) (pyStrOpt loc)
        pd.2).map (fun r => r.job_id)).Perm
        (pd.2.map (fun jd => toString jd._id)) := by
    intro pd hpd
    exact (matchedPipeline_ids s wid (pySplitSkills skills) (pyStrOpt loc) pd.2
      (fun jd hjd => hall jd (hmem pd hpd jd hjd))
      (fun jd hjd => hemp jd (hmem pd hpd jd hjd))
      (hplen pd hpd)).1
  have hall_ids : (((s.jobParts.map (fun pd =>
      matchedPipelineOnPartition s wid (pySplitSkills skills) (pyStrOpt loc)
        pd.2)).flatten).map (fun r => r.job_id)).Perm
      ((allPartitionJobs s).map (fun jd => toString jd._id)) := by
    rw [List.map_flatten, List.map_map]
    have hrhs : (s.jobParts.map (fun pd =>
        pd.2.map (fun jd => toString jd._id))).flatten =
        (allPartitionJobs s).map (fun jd => toString jd._id) := by
      unfold allPartitionJobs
      rw [List.map_flatMap, List.flatMap_def]
    have hperm := flatten_map_perm s.jobParts
      (fun pd => (matchedPipelineOnPartition s wid (pySplitSkills skills)
        (pyStrOpt loc) pd.2).map (fun r => r.job_id))
      (fun pd => pd.2.map (fun jd => toString jd._id))
      (fun pd hpd => hper pd hpd)
    exact hrhs ▸ hperm
  have hlen_all : ((s.jobParts.map (fun pd =>
      matchedPipelineOnPartition s wid (pySplitSkills skills) (pyStrOpt loc)
        pd.2)).flatten).length ≤ 100 := by
    have h1 := hall_ids.length_eq
    rw [List.length_map, List.length_map] at h1
    have h4 : (allPartitionJobs s).length = totalPartitionJobs s := by
      unfold allPartitionJobs totalPartitionJobs
      rw [List.length_flatMap]
      rfl
    omega
  have htake : (sortByPostedAtDesc ((s.jobParts.map (fun pd =>
      matchedPipelineOnPartition s wid (pySplitSkills skills) (pyStrOpt loc)
        pd.2)).flatten)).take 100 =
      sortByPostedAtDesc ((s.jobParts.map (fun pd =>
        matchedPipelineOnPartition s wid (pySplitSkills skills) (pyStrOpt loc)
          pd.2)).flatten) := by
    apply List.take_of_length_le
    rw [sortByPostedAtDesc_length]
    exact hlen_all
  have hfin : worker_matched_jobs wid skills loc s =
      sortByPostedAtDesc ((s.jobParts.map (fun pd =>
        matchedPipelineOnPartition s wid (pySplitSkills skills) (pyStrOpt loc)
          pd.2)).flatten) := by
    unfold worker_matched_jobs
    exact htake
  rw [hfin]
  constructor
  · exact ((sortByPostedAtDesc_perm _).map (fun r => r.job_id)).trans hall_ids
  · exact sortByPostedAtDesc_sorted _

/-- Employer of the C5 witness jobs. -/
def empC5 : EmployerDoc :=
  { _id := 70, user_id := 71, company_name := "K", employer_name := "E",
    location := "Mumbai", phone := "1" }

/-- An open job matching skill "cooking", with the given id and timestamp. -/
def mkJobC5 (i t : Nat) : JobDoc :=
  { _id := i, employer_id := 70, title := "cook", required_skills := "cooking, serving",
    description := "d", salary_min := none, salary_max := none,
    location := some "Mumbai", status := "open", posted_at := t, created_at := t }

/-- The spec's merge scenario: 3 open matching jobs in `jobs_2024` and 2 in
    `jobs_2025`, inserted out of timestamp order within each partition. -/
def sC5 : DB :=
  { users := [], workers := [], workerParts := fun _ => [], employers := [empC5],
    admins := [], applications := [], jobs := [],
    jobParts := [(2024, [mkJobC5 1 10, mkJobC5 2 30, mkJobC5 3 20]),
                 (2025, [mkJobC5 4 50, mkJobC5 5 40])],
    nextId := 100, clock := 60, clockYear := 2025 }

/-- C5 witness: the merge theorem applied to the spec's 3-plus-2 scenario,
    with all three hypotheses discharged by evaluation. -/
theorem C5_worker_matched_jobs_witness :
    ((worker_matched_jobs 9 "cooking" none sC5).map (fun r => r.job_id)).Perm
      ((allPartitionJobs sC5).map (fun jd => toString jd._id)) ∧
    List.Sorted (fun a b : MatchedJob => b.posted_at ≤ a.posted_at)
      (worker_matched_jobs 9 "cooking" none sC5) :=
  C5_worker_matched_jobs_merge sC5 9 "cooking" none (by decide) (by decide) (by decide)
